import Mathlib

/-!
Shallow embedding of `grapher.py`: a training-performance analyser that turns
per-activity heart-rate streams into daily heart-rate-zone minutes, a daily
TRIMP score, and an exponential fitness/fatigue/performance recurrence.

Conventions of the embedding:
* Python floats are modelled as `ℚ`; a missing value (`NaN`) is `none` in
  `Option ℚ`.  IEEE comparisons with `NaN` are all false, which `nan_ge` /
  `nan_lt` reproduce.
* Elapsed-time stream samples are `ℕ` (the source's JSON carries non-negative
  integer seconds).
* `pd.Series(hr, index = time)` is the list of `(index, value)` pairs in
  stream order (`mkSeries`).  `Series.drop_duplicates` drops entries whose
  VALUE already occurred (pandas semantics, keep "first").
* `Series.reindex (range n)` looks every label `0 … n-1` up in the series
  (`series_lookup`; the source raises on a duplicated label axis — theorems
  about reindexed data only ever use series whose labels are unique).
* `Series.interpolate(method = "linear")` with the default forward limit
  direction: interior gaps are linearly interpolated between the nearest
  known neighbours, gaps after the last known sample are filled with that
  last value (numpy's constant extension), gaps before the first known
  sample stay missing (`interp_at`).
* The daily table is a list of `(day, Row)` pairs built over the dense day
  range from the first record's date to today; calendar dates are day
  numbers `ℕ`.
* Division by a zero `hr_max` raises in Python; in `ℚ` it yields `0`.  Every
  theorem about `get_zone` therefore carries a nonvanishing-`hr_max`
  hypothesis matching the spec's precondition.
-/

namespace TPA

/-! ## Source constants (grapher.py lines 10-14) -/

def R1 : ℕ := 60

def R2 : ℕ := 5

/-! ## JSON-ish values and Python exceptions, for the stream extractor -/

/-- A parsed JSON value, as `json.load` hands it to `get_stream`. -/
inductive JVal where
  | jnull : JVal
  | jnum : ℚ → JVal
  | jstr : String → JVal
  | jarr : List JVal → JVal
  | jobj : List (String × JVal) → JVal

/-- The two Python exception classes `get_stream` can meet: `TypeError`
(subscripting / iterating a non-container) and `KeyError` (a dict without the
asked key). -/
inductive PyExc where
  | typeError : PyExc
  | keyError : PyExc
deriving DecidableEq

/-- Lookup in a Python dict built by `json.load`: a later duplicate key wins. -/
def obj_lookup (fields : List (String × JVal)) (k : String) : Option JVal :=
  (fields.reverse.find? (fun p => p.1 == k)).map Prod.snd

/-- Python subscripting `data[k]` with a string key: dicts look the key up and
raise `KeyError` when absent; every other value raises `TypeError`. -/
def subscrRaw : JVal → String → Except PyExc JVal
  | JVal.jobj fields, k =>
    match obj_lookup fields k with
    | some v => Except.ok v
    | none => Except.error PyExc.keyError
  | _, _ => Except.error PyExc.typeError

/-- Python iteration for `filter(..., streams)`: lists yield their elements,
dicts their keys, strings their characters; numbers and `None` raise
`TypeError`. -/
def py_iter : JVal → Except PyExc (List JVal)
  | JVal.jarr xs => Except.ok xs
  | JVal.jobj fields => Except.ok (fields.map (fun p => JVal.jstr p.1))
  | JVal.jstr s => Except.ok (s.toList.map (fun c => JVal.jstr c.toString))
  | _ => Except.error PyExc.typeError

/-- Python `v == s` against the string parameter `stream`: only an equal
string compares true (`==` itself never raises here). -/
def py_eq_str (v : JVal) (s : String) : Bool :=
  match v with
  | JVal.jstr t => t == s
  | _ => false

/-- `list(filter(p, xs))` with a predicate that may raise: elements are tested
in order and the first exception propagates. -/
def filterE (p : JVal → Except PyExc Bool) : List JVal → Except PyExc (List JVal)
  | [] => Except.ok []
  | x :: xs => do
    let b ← p x
    let rest ← filterE p xs
    pure (if b then x :: rest else rest)

/-- Body of `get_stream` before its `try`/`except` (grapher.py lines 19-25):
`data["streams"]`, filter by `s["type"] == stream`, `None` when no match,
else `matches[0]["data"]`. -/
def get_streamRaw (data : JVal) (stream : String) : Except PyExc (Option JVal) := do
  let streams ← subscrRaw data "streams"
  let elems ← py_iter streams
  let hits ← filterE (fun s => do
    let t ← subscrRaw s "type"
    pure (py_eq_str t stream)) elems
  match hits with
  | [] => pure none
  | m :: _ => do
    let d ← subscrRaw m "data"
    pure (some d)

/-- `get_stream` (grapher.py lines 16-28): the body wrapped in
`try: ... except TypeError: return None`.  Only `TypeError` is caught; any
`KeyError` escapes to the caller. -/
def get_stream (data : JVal) (stream : String) : Except PyExc (Option JVal) :=
  match get_streamRaw data stream with
  | Except.error PyExc.typeError => Except.ok none
  | r => r

/-! ## Zone classification (grapher.py lines 30-37) -/

/-- IEEE-style `c <= x` where `x` may be `NaN` (`none`): false on `NaN`. -/
def nan_ge (x : Option ℚ) (c : ℚ) : Bool :=
  match x with
  | none => false
  | some v => decide (c ≤ v)

/-- IEEE-style `x < c` where `x` may be `NaN` (`none`): false on `NaN`. -/
def nan_lt (x : Option ℚ) (c : ℚ) : Bool :=
  match x with
  | none => false
  | some v => decide (v < c)

/-- `get_zone(value, hr_max)`: percentage of the maximum heart rate, then the
first matching band; every guard is false on `NaN`, so `NaN` falls through to
zone `0`. -/
def get_zone (value : Option ℚ) (hr_max : ℚ) : ℕ :=
  let percentage := value.map (fun v => v * 100 / hr_max)
  if nan_ge percentage 50 && nan_lt percentage 60 then 1
  else if nan_ge percentage 60 && nan_lt percentage 70 then 2
  else if nan_ge percentage 70 && nan_lt percentage 80 then 3
  else if nan_ge percentage 80 && nan_lt percentage 90 then 4
  else if nan_ge percentage 90 then 5
  else 0

/-! ## Per-activity series pipeline (grapher.py lines 47-59) -/

/-- `pd.Series(hr_stream, index = time_stream)`: index-aligned pairs. -/
def mkSeries (hr : List ℚ) (time : List ℕ) : List (ℕ × ℚ) :=
  time.zip hr

/-- `Series.drop_duplicates()` (line 50): pandas drops entries whose VALUE has
already appeared, keeping the first occurrence; the index plays no part. -/
def drop_duplicates : List (ℕ × ℚ) → List ℚ → List (ℕ × ℚ)
  | [], _ => []
  | p :: rest, seen =>
    if p.2 ∈ seen then drop_duplicates rest seen
    else p :: drop_duplicates rest (p.2 :: seen)

/-- `max(time_stream)` (Python `max`; the source raises on an empty stream,
which theorems exclude by using nonempty streams). -/
def maxL (l : List ℕ) : ℕ :=
  l.foldr max 0

/-- Label lookup for `reindex`: the value stored at label `i`. -/
def series_lookup (s : List (ℕ × ℚ)) (i : ℕ) : Option ℚ :=
  (s.find? (fun p => p.1 == i)).map Prod.snd

/-- `Series.reindex(range(n))` (line 53): a dense series over labels
`0 … n-1`, missing labels holding `NaN`. -/
def reindex (s : List (ℕ × ℚ)) (n : ℕ) : List (Option ℚ) :=
  (List.range n).map (series_lookup s)

/-- The value at position `j`, `none` when missing or out of range. -/
def known_at (l : List (Option ℚ)) (j : ℕ) : Option ℚ :=
  (l.getD j none)

/-- The latest known sample at or before position `i`. -/
def prev_known (l : List (Option ℚ)) : ℕ → Option (ℕ × ℚ)
  | 0 => (known_at l 0).map (fun v => (0, v))
  | j + 1 =>
    match known_at l (j + 1) with
    | some v => some (j + 1, v)
    | none => prev_known l j

/-- The earliest known sample at or after position `i`. -/
def next_known (l : List (Option ℚ)) (i : ℕ) : Option (ℕ × ℚ) :=
  match (List.range l.length).find? (fun j => decide (i ≤ j) && (known_at l j).isSome) with
  | some j => (known_at l j).map (fun v => (j, v))
  | none => none

/-- `Series.interpolate(method = "linear")` at one position (line 54): known
values stay; a gap between two known samples is linearly interpolated; a gap
after the last known sample takes that last value (numpy's constant
extension); a gap before the first known sample stays missing (the default
forward limit direction). -/
def interp_at (l : List (Option ℚ)) (i : ℕ) : Option ℚ :=
  match known_at l i with
  | some v => some v
  | none =>
    match prev_known l i, next_known l i with
    | none, _ => none
    | some (_, v), none => some v
    | some (j, vj), some (k, vk) => some (vj + (vk - vj) * (((i : ℚ) - (j : ℚ)) / ((k : ℚ) - (j : ℚ))))

/-- The whole interpolated series. -/
def interpolate (l : List (Option ℚ)) : List (Option ℚ) :=
  (List.range l.length).map (interp_at l)

/-- Seconds classified into zone `k` (lines 57-58: `apply(get_zone)` then
`groupby` sizes). -/
def zone_seconds (l : List (Option ℚ)) (m : ℚ) (k : ℕ) : ℕ :=
  (l.map (fun x => get_zone x m)).count k

/-- Minutes in zone `k` (line 59: group size divided by 60; a zone absent
from the groupby result has size 0 and the caller adds 0 for it, line 71). -/
def agg_minutes (l : List (Option ℚ)) (m : ℚ) (k : ℕ) : ℚ :=
  (zone_seconds l m k : ℚ) / 60

/-- The gap-filled per-second series of one activity (lines 47-54). -/
def activity_series (time : List ℕ) (hr : List ℚ) : List (Option ℚ) :=
  interpolate (reindex (drop_duplicates (mkSeries hr time) []) (maxL time))

/-! ## The daily table (grapher.py lines 61-72 and 91-111) -/

/-- One daily row of the raw table: the mutable cells `process_activity`
touches.  A `none` cell is a still-unset `NaN`. -/
structure Row where
  id : Option ℤ
  name : Option String
  tz0 : Option ℚ
  tz1 : Option ℚ
  tz2 : Option ℚ
  tz3 : Option ℚ
  tz4 : Option ℚ
  tz5 : Option ℚ
deriving DecidableEq

/-- A freshly created row: every cell `NaN`. -/
def emptyRow : Row :=
  ⟨none, none, none, none, none, none, none, none⟩

/-- An activity record as `process_activity` consumes it: identifier, display
name, parsed calendar date (a day number), and the two extracted streams —
`none` models a stream `get_stream` could not supply. -/
structure Activity where
  id : ℤ
  name : String
  start_date : ℕ
  time : Option (List ℕ)
  hr : Option (List ℚ)
deriving DecidableEq

/-- `row[tzK] = (current if not pd.isnull(current) else 0) + tz`
(line 72): the `fillna`-style guard on a single cell. -/
def fill0 (x : Option ℚ) : ℚ :=
  x.getD 0

/-- The row mutation of `process_activity` (lines 61-72): id and name are
overwritten, each zone cell accumulates that activity's minutes in the zone. -/
def update_row (r : Row) (a : Activity) (t : List ℕ) (h : List ℚ) (m : ℚ) : Row :=
  let zs := activity_series t h
  ⟨some a.id, some a.name,
    some (fill0 r.tz0 + agg_minutes zs m 0),
    some (fill0 r.tz1 + agg_minutes zs m 1),
    some (fill0 r.tz2 + agg_minutes zs m 2),
    some (fill0 r.tz3 + agg_minutes zs m 3),
    some (fill0 r.tz4 + agg_minutes zs m 4),
    some (fill0 r.tz5 + agg_minutes zs m 5)⟩

/-- `process_activity` (lines 39-72): skip when either stream is absent, else
mutate the row whose date is the activity's start date.  (The source raises
`KeyError` for a date outside the table; the embedding's theorems only drive
it with in-range dates.) -/
def process_activity (table : List (ℕ × Row)) (a : Activity) (m : ℚ) : List (ℕ × Row) :=
  match a.time, a.hr with
  | some t, some h =>
    table.map (fun p => if p.1 = a.start_date then (p.1, update_row p.2 a t h m) else p)
  | _, _ => table

/-- `pd.date_range(start_date, end_date)` (line 100): every day from `s` to
`e` inclusive. -/
def date_range (s e : ℕ) : List ℕ :=
  (List.range (e + 1 - s)).map (fun i => s + i)

/-- The empty daily table over the dense day range (line 101). -/
def init_table (s e : ℕ) : List (ℕ × Row) :=
  (date_range s e).map (fun d => (d, emptyRow))

/-- The activity loop (lines 104-105). -/
def merge_all (acts : List Activity) (m : ℚ) (table : List (ℕ × Row)) : List (ℕ × Row) :=
  acts.foldl (fun t a => process_activity t a m) table

/-- `dateutil.parser.parse(data[0]["start_date"]).date()` (line 98): the date
of the FIRST record of the input file (the source raises `IndexError` on an
empty file; theorems use nonempty inputs). -/
def start_of (acts : List Activity) : ℕ :=
  (acts.head?.map Activity.start_date).getD 0

/-- Table construction followed by the activity loop (lines 98-105). -/
def build_table (acts : List Activity) (m : ℚ) (today : ℕ) : List (ℕ × Row) :=
  merge_all acts m (init_table (start_of acts) today)

/-- A row after `fillna(0)` (line 108) and the trimp column derivation
(line 111).  `id`/`name` also get the fill in the source; they are kept as
options here since no claim reads a filled id. -/
structure DayRow where
  date : ℕ
  id : Option ℤ
  name : Option String
  tz0 : ℚ
  tz1 : ℚ
  tz2 : ℚ
  tz3 : ℚ
  tz4 : ℚ
  tz5 : ℚ
  trimp : ℚ
deriving DecidableEq

/-- `fillna(0)` on one row plus
`trimp = tz1 + 2*tz2 + 3*tz3 + 4*tz4 + 5*tz5` (lines 108-111). -/
def to_day_row (p : ℕ × Row) : DayRow :=
  ⟨p.1, p.2.id, p.2.name,
    fill0 p.2.tz0, fill0 p.2.tz1, fill0 p.2.tz2, fill0 p.2.tz3, fill0 p.2.tz4, fill0 p.2.tz5,
    fill0 p.2.tz1 + 2 * fill0 p.2.tz2 + 3 * fill0 p.2.tz3 + 4 * fill0 p.2.tz4 + 5 * fill0 p.2.tz5⟩

/-- The daily table right before `calculate_performance` runs. -/
def day_rows (acts : List Activity) (m : ℚ) (today : ℕ) : List DayRow :=
  (build_table acts m today).map to_day_row

/-! ## The fitness/fatigue/performance recurrence (grapher.py lines 74-83) -/

/-- A finished row: the daily table columns after `calculate_performance`
stored `fitness`, `fatigue` and `performance`. -/
structure FinalRow where
  date : ℕ
  id : Option ℤ
  name : Option String
  tz0 : ℚ
  tz1 : ℚ
  tz2 : ℚ
  tz3 : ℚ
  tz4 : ℚ
  tz5 : ℚ
  trimp : ℚ
  fitness : ℝ
  fatigue : ℝ
  performance : ℝ

/-- `calculate_performance` (lines 74-83) as a fold in row order.  The decay
factors `e1 = exp(-1/R1)`, `e2 = exp(-1/R2)` and the weights `k1 = K1`,
`k2 = K2` are parameters because `Real.exp` carries no executable code; the
theorems instantiate them with the source's values. -/
def calculate_performance (e1 e2 k1 k2 : ℝ) : ℝ → ℝ → List DayRow → List FinalRow
  | _, _, [] => []
  | fitness, fatigue, r :: rs =>
    let fitness2 := fitness * e1 + (r.trimp : ℝ)
    let fatigue2 := fatigue * e2 + (r.trimp : ℝ)
    ⟨r.date, r.id, r.name, r.tz0, r.tz1, r.tz2, r.tz3, r.tz4, r.tz5, r.trimp,
      fitness2, fatigue2, fitness2 * k1 - fatigue2 * k2⟩
      :: calculate_performance e1 e2 k1 k2 fitness2 fatigue2 rs

/-- The whole pipeline: build and merge the daily table, fill, derive trimp,
then run the recurrence with both accumulators starting at 0 (lines 75-76). -/
def final_table (e1 e2 k1 k2 : ℝ) (acts : List Activity) (m : ℚ) (today : ℕ) : List FinalRow :=
  calculate_performance e1 e2 k1 k2 0 0 (day_rows acts m today)

/-- Modelled from the spec (section 4.5): the chronological recurrence the
stored columns must satisfy, with `R1 = 60`, `R2 = 5`, `K1 = 0.0076`,
`K2 = 0.0020`.  Compared against `calculate_performance` in the theorems. -/
def spec_recurrence : ℝ → ℝ → List FinalRow → Prop
  | _, _, [] => True
  | fitness, fatigue, r :: rs =>
    r.fitness = fitness * Real.exp (-(1 : ℝ) / 60) + (r.trimp : ℝ) ∧
    r.fatigue = fatigue * Real.exp (-(1 : ℝ) / 5) + (r.trimp : ℝ) ∧
    r.performance = r.fitness * 0.0076 - r.fatigue * 0.0020 ∧
    spec_recurrence r.fitness r.fatigue rs

/-! ## Helper lemmas -/

lemma get_zone_none (m : ℚ) : get_zone none m = 0 := rfl

lemma process_activity_fst (t : List (ℕ × Row)) (a : Activity) (m : ℚ) :
    (process_activity t a m).map Prod.fst = t.map Prod.fst := by
  unfold process_activity
  cases a.time with
  | none => rfl
  | some ts =>
    cases a.hr with
    | none => rfl
    | some hs =>
      simp only [List.map_map]
      refine List.map_congr_left fun p hp => ?_
      by_cases h : p.1 = a.start_date <;> simp [h]

lemma merge_all_fst (acts : List Activity) (m : ℚ) :
    ∀ t, (merge_all acts m t).map Prod.fst = t.map Prod.fst := by
  induction acts with
  | nil => intro t; rfl
  | cons a as ih =>
    intro t
    have h1 : merge_all (a :: as) m t = merge_all as m (process_activity t a m) := rfl
    rw [h1, ih, process_activity_fst]

lemma init_table_fst (s e : ℕ) : (init_table s e).map Prod.fst = date_range s e := by
  simp only [init_table, List.map_map]
  exact List.map_id _

lemma date_range_pairwise (s e : ℕ) : List.Pairwise (· < ·) (date_range s e) := by
  unfold date_range
  exact List.Pairwise.map _ (fun a b h => Nat.add_lt_add_left h s) (List.pairwise_lt_range _)

lemma date_range_mem (s e d : ℕ) (h : s ≤ e) : d ∈ date_range s e ↔ (s ≤ d ∧ d ≤ e) := by
  simp only [date_range, List.mem_map, List.mem_range]
  constructor
  · rintro ⟨i, hi, rfl⟩
    omega
  · rintro ⟨h1, h2⟩
    exact ⟨d - s, by omega, by omega⟩

lemma mem_process_activity_of_ne (t : List (ℕ × Row)) (a : Activity) (m : ℚ) (p : ℕ × Row)
    (hp : p ∈ process_activity t a m) (hne : a.start_date ≠ p.1) : p ∈ t := by
  unfold process_activity at hp
  cases ht : a.time with
  | none => rw [ht] at hp; exact hp
  | some ts =>
    cases hh : a.hr with
    | none => rw [ht, hh] at hp; exact hp
    | some hs =>
      rw [ht, hh] at hp
      obtain ⟨q, hq, hfq⟩ := List.mem_map.1 hp
      by_cases h : q.1 = a.start_date
      · rw [if_pos h] at hfq
        exact absurd (by rw [← hfq]; exact h.symm) hne
      · rw [if_neg h] at hfq
        rw [← hfq]
        exact hq

lemma mem_merge_all_of_ne (acts : List Activity) (m : ℚ) :
    ∀ t p, p ∈ merge_all acts m t → (∀ b ∈ acts, b.start_date ≠ p.1) → p ∈ t := by
  induction acts with
  | nil => intro t p hp _; exact hp
  | cons a as ih =>
    intro t p hp hb
    have hstep : p ∈ process_activity t a m :=
      ih (process_activity t a m) p hp (fun b hbmem => hb b (List.mem_cons_of_mem _ hbmem))
    exact mem_process_activity_of_ne _ _ _ _ hstep (hb a (List.mem_cons_self _ _))

lemma calculate_performance_dates (e1 e2 k1 k2 : ℝ) :
    ∀ (rows : List DayRow) (f g : ℝ),
      (calculate_performance e1 e2 k1 k2 f g rows).map FinalRow.date = rows.map DayRow.date := by
  intro rows
  induction rows with
  | nil => intro f g; rfl
  | cons r rs ih => intro f g; simp [calculate_performance, ih]

lemma mem_calculate_performance (e1 e2 k1 k2 : ℝ) :
    ∀ (rows : List DayRow) (f g : ℝ) (r : FinalRow),
      r ∈ calculate_performance e1 e2 k1 k2 f g rows →
      ∃ dr ∈ rows, r.tz1 = dr.tz1 ∧ r.tz2 = dr.tz2 ∧ r.tz3 = dr.tz3 ∧ r.tz4 = dr.tz4 ∧
        r.tz5 = dr.tz5 ∧ r.trimp = dr.trimp := by
  intro rows
  induction rows with
  | nil => intro f g r h; simp [calculate_performance] at h
  | cons dr rs ih =>
    intro f g r h
    simp only [calculate_performance, List.mem_cons] at h
    rcases h with h | h
    · exact ⟨dr, List.mem_cons_self _ _, by rw [h], by rw [h], by rw [h], by rw [h],
        by rw [h], by rw [h]⟩
    · obtain ⟨dr2, hm, hf⟩ := ih _ _ _ h
      exact ⟨dr2, List.mem_cons_of_mem _ hm, hf⟩

lemma spec_recurrence_calculate :
    ∀ (rows : List DayRow) (f g : ℝ),
      spec_recurrence f g
        (calculate_performance (Real.exp (-(1 : ℝ) / 60)) (Real.exp (-(1 : ℝ) / 5))
          0.0076 0.0020 f g rows) := by
  intro rows
  induction rows with
  | nil => intro f g; simp [calculate_performance, spec_recurrence]
  | cons r rs ih =>
    intro f g
    exact ⟨rfl, rfl, rfl, ih _ _⟩

lemma day_rows_dates (acts : List Activity) (m : ℚ) (today : ℕ) :
    (day_rows acts m today).map DayRow.date = (build_table acts m today).map Prod.fst := by
  simp only [day_rows, List.map_map]
  rfl

/-- The if-chain of `get_zone` on a present value, with propositional guards. -/
lemma get_zone_eval (v m : ℚ) :
    get_zone (some v) m =
      (if 50 ≤ v * 100 / m ∧ v * 100 / m < 60 then 1
       else if 60 ≤ v * 100 / m ∧ v * 100 / m < 70 then 2
       else if 70 ≤ v * 100 / m ∧ v * 100 / m < 80 then 3
       else if 80 ≤ v * 100 / m ∧ v * 100 / m < 90 then 4
       else if 90 ≤ v * 100 / m then 5
       else 0) := by
  unfold get_zone
  simp only [Option.map_some', nan_ge, nan_lt, Bool.and_eq_true, decide_eq_true_eq]

lemma get_zone_le_five (value : Option ℚ) (m : ℚ) : get_zone value m ≤ 5 := by
  simp only [get_zone]
  split_ifs <;> norm_num

/-- The end-to-end activity of the spec's single-day test: dated day 0,
time stream [0,1,2,3,4,5], heart-rate stream six samples of 90. -/
def c2_act : Activity :=
  ⟨1, "a", 0, some [0, 1, 2, 3, 4, 5], some [90, 90, 90, 90, 90, 90]⟩

/-- The daily table of the single-day test, computed: after the value-based
`drop_duplicates` only the sample at second 0 survives, the series is
reindexed over `[0, 5)` and forward-filled with 90, giving five zone-1
seconds, hence tz1 = 5/60 = 1/12. -/
lemma c2_day_rows :
    day_rows [c2_act] 180 0 = [⟨0, some 1, some "a", 0, 1 / 12, 0, 0, 0, 0, 1 / 12⟩] := by
  norm_num [c2_act, day_rows, build_table, merge_all, init_table, date_range, start_of,
    process_activity, update_row, to_day_row, fill0, agg_minutes, zone_seconds,
    activity_series, interpolate, reindex, drop_duplicates, mkSeries, maxL, series_lookup,
    interp_at, known_at, prev_known, next_known, get_zone, nan_ge, nan_lt, List.range_succ,
    emptyRow, merge_all]

/-! ## Claim theorems -/

/-- C1: after all activities are merged and unset cells are filled with 0,
the finished table's rows stand in strictly increasing date order, every
row's trimp equals tz1 + 2 tz2 + 3 tz3 + 4 tz4 + 5 tz5, and the stored
fitness, fatigue and performance columns satisfy the chronological
recurrence with both accumulators initialised to 0 before the first row:
fitness = prev_fitness * e^(-1/60) + trimp,
fatigue = prev_fatigue * e^(-1/5) + trimp,
performance = fitness * 0.0076 - fatigue * 0.0020. -/
theorem C1_trainingload_recurrence (acts : List Activity) (m : ℚ) (today : ℕ) :
    List.Chain' (· < ·)
      ((final_table (Real.exp (-(1 : ℝ) / 60)) (Real.exp (-(1 : ℝ) / 5)) 0.0076 0.0020
        acts m today).map FinalRow.date) ∧
    (∀ r ∈ final_table (Real.exp (-(1 : ℝ) / 60)) (Real.exp (-(1 : ℝ) / 5)) 0.0076 0.0020
        acts m today,
      r.trimp = r.tz1 + 2 * r.tz2 + 3 * r.tz3 + 4 * r.tz4 + 5 * r.tz5) ∧
    spec_recurrence 0 0
      (final_table (Real.exp (-(1 : ℝ) / 60)) (Real.exp (-(1 : ℝ) / 5)) 0.0076 0.0020
        acts m today) := by
  refine ⟨?_, ?_, ?_⟩
  · rw [final_table, calculate_performance_dates, day_rows_dates, build_table, merge_all_fst,
      init_table_fst]
    exact (date_range_pairwise _ _).chain'
  · intro r hr
    obtain ⟨dr, hdr, h1, h2, h3, h4, h5, ht⟩ :=
      mem_calculate_performance _ _ _ _ _ _ _ r hr
    obtain ⟨p, hp, rfl⟩ := List.mem_map.1 hdr
    rw [ht, h1, h2, h3, h4, h5]
    rfl
  · exact spec_recurrence_calculate _ 0 0

/-- C2 counterexample: on the claimed input (one activity, max heart-rate
180, time stream [0,1,2,3,4,5], heart rate constant 90) the code stores
tz1 = 5/60 = 1/12, not the claimed 6/60 = 1/10: `reindex(range(max(time)))`
spans the exclusive domain [0, 5), so only five seconds exist. -/
theorem C2_counterexample :
    (day_rows [c2_act] 180 0).map DayRow.tz1 = [1 / 12] ∧ (1 / 12 : ℚ) ≠ 1 / 10 := by
  rw [c2_day_rows]
  norm_num

/-- C2 amended: the single-day pipeline on that input yields tz1 = 1/12,
trimp = 1/12, fitness = 1/12, fatigue = 1/12 and
performance = (1/12) * 0.0076 - (1/12) * 0.0020 = 7/15000. -/
theorem C2_amended :
    (final_table (Real.exp (-(1 : ℝ) / 60)) (Real.exp (-(1 : ℝ) / 5)) 0.0076 0.0020
      [c2_act] 180 0).map FinalRow.tz1 = [1 / 12] ∧
    (final_table (Real.exp (-(1 : ℝ) / 60)) (Real.exp (-(1 : ℝ) / 5)) 0.0076 0.0020
      [c2_act] 180 0).map FinalRow.trimp = [1 / 12] ∧
    (final_table (Real.exp (-(1 : ℝ) / 60)) (Real.exp (-(1 : ℝ) / 5)) 0.0076 0.0020
      [c2_act] 180 0).map FinalRow.fitness = [(1 / 12 : ℝ)] ∧
    (final_table (Real.exp (-(1 : ℝ) / 60)) (Real.exp (-(1 : ℝ) / 5)) 0.0076 0.0020
      [c2_act] 180 0).map FinalRow.fatigue = [(1 / 12 : ℝ)] ∧
    (final_table (Real.exp (-(1 : ℝ) / 60)) (Real.exp (-(1 : ℝ) / 5)) 0.0076 0.0020
      [c2_act] 180 0).map FinalRow.performance = [(7 / 15000 : ℝ)] := by
  have h : final_table (Real.exp (-(1 : ℝ) / 60)) (Real.exp (-(1 : ℝ) / 5)) 0.0076 0.0020
      [c2_act] 180 0 =
      calculate_performance (Real.exp (-(1 : ℝ) / 60)) (Real.exp (-(1 : ℝ) / 5)) 0.0076 0.0020
        0 0 [⟨0, some 1, some "a", 0, 1 / 12, 0, 0, 0, 0, 1 / 12⟩] := by
    unfold final_table
    rw [c2_day_rows]
  rw [h]
  simp only [calculate_performance, List.map_cons, List.map_nil]
  norm_num

/-- C3: for a positive maximum heart-rate the zone classifier computes
percentage = v/m*100 and lands in exactly one of the six bands, with each
boundary value inclusive on the lower bound of its zone; the result is one
of {0,...,5}. -/
theorem C3_zone_bands (v m : ℚ) (hm : 0 < m) :
    get_zone (some v) m =
      (if v / m * 100 < 50 then 0
       else if v / m * 100 < 60 then 1
       else if v / m * 100 < 70 then 2
       else if v / m * 100 < 80 then 3
       else if v / m * 100 < 90 then 4
       else 5) ∧
    get_zone (some v) m ≤ 5 := by
  refine ⟨?_, get_zone_le_five _ _⟩
  have h1 : v * 100 / m = v / m * 100 := by ring
  rw [get_zone_eval, h1]
  set p := v / m * 100 with hpdef
  rcases lt_or_le p 50 with h50 | h50
  · rw [if_neg (show ¬(50 ≤ p ∧ p < 60) by rintro ⟨a, b⟩; linarith),
      if_neg (show ¬(60 ≤ p ∧ p < 70) by rintro ⟨a, b⟩; linarith),
      if_neg (show ¬(70 ≤ p ∧ p < 80) by rintro ⟨a, b⟩; linarith),
      if_neg (show ¬(80 ≤ p ∧ p < 90) by rintro ⟨a, b⟩; linarith),
      if_neg (show ¬(90 ≤ p) by linarith), if_pos h50]
  rcases lt_or_le p 60 with h60 | h60
  · rw [if_pos ⟨h50, h60⟩, if_neg (show ¬(p < 50) by linarith), if_pos h60]
  rcases lt_or_le p 70 with h70 | h70
  · rw [if_neg (show ¬(50 ≤ p ∧ p < 60) by rintro ⟨a, b⟩; linarith),
      if_pos ⟨h60, h70⟩, if_neg (show ¬(p < 50) by linarith),
      if_neg (show ¬(p < 60) by linarith), if_pos h70]
  rcases lt_or_le p 80 with h80 | h80
  · rw [if_neg (show ¬(50 ≤ p ∧ p < 60) by rintro ⟨a, b⟩; linarith),
      if_neg (show ¬(60 ≤ p ∧ p < 70) by rintro ⟨a, b⟩; linarith),
      if_pos ⟨h70, h80⟩, if_neg (show ¬(p < 50) by linarith),
      if_neg (show ¬(p < 60) by linarith), if_neg (show ¬(p < 70) by linarith), if_pos h80]
  rcases lt_or_le p 90 with h90 | h90
  · rw [if_neg (show ¬(50 ≤ p ∧ p < 60) by rintro ⟨a, b⟩; linarith),
      if_neg (show ¬(60 ≤ p ∧ p < 70) by rintro ⟨a, b⟩; linarith),
      if_neg (show ¬(70 ≤ p ∧ p < 80) by rintro ⟨a, b⟩; linarith),
      if_pos ⟨h80, h90⟩, if_neg (show ¬(p < 50) by linarith),
      if_neg (show ¬(p < 60) by linarith), if_neg (show ¬(p < 70) by linarith),
      if_neg (show ¬(p < 80) by linarith), if_pos h90]
  · rw [if_neg (show ¬(50 ≤ p ∧ p < 60) by rintro ⟨a, b⟩; linarith),
      if_neg (show ¬(60 ≤ p ∧ p < 70) by rintro ⟨a, b⟩; linarith),
      if_neg (show ¬(70 ≤ p ∧ p < 80) by rintro ⟨a, b⟩; linarith),
      if_neg (show ¬(80 ≤ p ∧ p < 90) by rintro ⟨a, b⟩; linarith),
      if_pos h90, if_neg (show ¬(p < 50) by linarith),
      if_neg (show ¬(p < 60) by linarith), if_neg (show ¬(p < 70) by linarith),
      if_neg (show ¬(p < 80) by linarith), if_neg (show ¬(p < 90) by linarith)]

/-- C3 witness: at heart-rate 90 and maximum 180 (percentage exactly 50) the
theorem applies and the classifier answers zone 1. -/
theorem C3_zone_bands_witness :
    (0 : ℚ) < 180 ∧
    (get_zone (some 90) 180 =
      (if (90 : ℚ) / 180 * 100 < 50 then 0
       else if (90 : ℚ) / 180 * 100 < 60 then 1
       else if (90 : ℚ) / 180 * 100 < 70 then 2
       else if (90 : ℚ) / 180 * 100 < 80 then 3
       else if (90 : ℚ) / 180 * 100 < 90 then 4
       else 5) ∧
    get_zone (some 90) 180 ≤ 5) :=
  ⟨by norm_num, C3_zone_bands 90 180 (by norm_num)⟩

/-- C4 counterexample: with time stream [0,2,4] and heart rates
[100,120,140], the reindexed and interpolated series holds 120 at second 3,
not the claimed 130: the sample at time 4 lies outside the reindex domain
[0, 4), so second 3 is a trailing gap filled with the last known value. -/
theorem C4_counterexample :
    (activity_series [0, 2, 4] [100, 120, 140]).getD 3 none = some 120 ∧
    some (120 : ℚ) ≠ some (130 : ℚ) := by
  constructor
  · norm_num [activity_series, interpolate, reindex, drop_duplicates, mkSeries, maxL,
      series_lookup, interp_at, known_at, prev_known, next_known, List.range_succ]
  · norm_num

/-- C4 amended: the gap-filled series over the domain [0, 4) is
[100, 110, 120, 120]: second 1 is linearly interpolated to 110, and second 3
is forward-filled with 120 because the sample at time 4 was dropped by the
exclusive reindex bound. -/
theorem C4_amended :
    activity_series [0, 2, 4] [100, 120, 140] = [some 100, some 110, some 120, some 120] := by
  norm_num [activity_series, interpolate, reindex, drop_duplicates, mkSeries, maxL,
    series_lookup, interp_at, known_at, prev_known, next_known, List.range_succ]

/-- C5: the deduplication step at the failing input. The source's
`drop_duplicates()` keys on heart-rate VALUES, so of the two samples
(time 0, hr 100) and (time 1, hr 100) — distinct times, equal rates — only
the first survives, although the claim (and the source's own comment, which
targets duplicate index labels that break `reindex`) says samples with
distinct times are all retained. -/
theorem C5_drop_duplicates_eval :
    drop_duplicates (mkSeries [100, 100] [0, 1]) [] = [(0, 100)] := by decide

end TPA

namespace TPA

/-! ## Gap lemmas for the interpolation step -/

lemma prev_known_of_all_none (l : List (Option ℚ)) :
    ∀ i, (∀ j, j ≤ i → known_at l j = none) → prev_known l i = none := by
  intro i
  induction i with
  | zero =>
    intro h
    simp [prev_known, h 0 (le_refl 0)]
  | succ n ih =>
    intro h
    have hn : known_at l (n + 1) = none := h (n + 1) (le_refl _)
    simp only [prev_known, hn]
    exact ih (fun j hj => h j (Nat.le_succ_of_le hj))

lemma prev_known_of_last (l : List (Option ℚ)) (j : ℕ) (v : ℚ) (hj : known_at l j = some v) :
    ∀ i, j ≤ i → (∀ k, j < k → k ≤ i → known_at l k = none) → prev_known l i = some (j, v) := by
  intro i
  induction i with
  | zero =>
    intro hji h
    have hj0 : j = 0 := Nat.le_zero.1 hji
    subst hj0
    simp [prev_known, hj]
  | succ n ih =>
    intro hji h
    rcases Nat.lt_or_ge j (n + 1) with hlt | hge
    · have hn : known_at l (n + 1) = none := h (n + 1) hlt (le_refl _)
      simp only [prev_known, hn]
      exact ih (Nat.lt_succ_iff.1 hlt) (fun k hk1 hk2 => h k hk1 (Nat.le_succ_of_le hk2))
    · have hj1 : j = n + 1 := le_antisymm hji hge
      subst hj1
      simp [prev_known, hj]

lemma next_known_of_none (l : List (Option ℚ)) (i : ℕ)
    (h : ∀ k, i ≤ k → known_at l k = none) : next_known l i = none := by
  unfold next_known
  have hfind : (List.range l.length).find?
      (fun j => decide (i ≤ j) && (known_at l j).isSome) = none := by
    rw [List.find?_eq_none]
    intro j _
    by_cases hij : i ≤ j
    · simp [hij, h j hij]
    · simp [hij]
  rw [hfind]

/-- C6 counterexample: the two leading-gap seconds of the series from time
stream [2,3] (heart rates [100,200]) are classified and counted — they land
in zone 0, giving it 2 seconds instead of the claimed 0; and the five
in-domain seconds of the series from time stream [0,5] are all classified
into zone 1 — the four trailing-gap seconds are forward-filled and counted,
instead of only the one known second. -/
theorem C6_counterexample :
    zone_seconds (activity_series [2, 3] [100, 200]) 180 0 = 2 ∧
    zone_seconds (activity_series [0, 5] [100, 200]) 180 1 = 5 ∧
    (2 ≠ 0 ∧ 5 ≠ 1) := by
  refine ⟨?_, ?_, by norm_num⟩ <;>
    norm_num [agg_minutes, zone_seconds, activity_series, interpolate, reindex,
      drop_duplicates, mkSeries, maxL, series_lookup, interp_at, known_at, prev_known,
      next_known, get_zone, nan_ge, nan_lt, List.range_succ]

/-- C6 amended: a second in a leading gap (every position up to it unknown)
stays unfilled and is classified to zone 0 — it is counted, toward tz0 —
while a second in a trailing gap (strictly after the last known sample) is
filled with that last sample's value and classified normally. -/
theorem C6_gap_handling (l : List (Option ℚ)) (m : ℚ) (i : ℕ) (hi : i < l.length) :
    ((∀ j, j ≤ i → known_at l j = none) →
      interp_at l i = none ∧ get_zone (interp_at l i) m = 0) ∧
    (∀ j v, known_at l j = some v → j < i → (∀ k, j < k → known_at l k = none) →
      interp_at l i = some v) := by
  constructor
  · intro h
    have h1 : interp_at l i = none := by
      unfold interp_at
      rw [h i (le_refl i), prev_known_of_all_none l i h]
    exact ⟨h1, by rw [h1]; exact get_zone_none m⟩
  · intro j v hj hji hafter
    unfold interp_at
    rw [hafter i hji, prev_known_of_last l j v hj i (le_of_lt hji) (fun k hk1 _ => hafter k hk1),
      next_known_of_none l i (fun k hk => hafter k (lt_of_lt_of_le hji hk))]

/-- C6 witness: in the series [NaN, NaN, 100], second 1 lies in a leading
gap, and the theorem applies at it. -/
theorem C6_gap_handling_witness :
    ((∀ j, j ≤ 1 → known_at [none, none, some 100] j = none) →
      interp_at [none, none, some 100] 1 = none ∧
      get_zone (interp_at [none, none, some 100] 1) 180 = 0) ∧
    (∀ j v, known_at [none, none, some 100] j = some v → j < 1 →
      (∀ k, j < k → known_at [none, none, some 100] k = none) →
      interp_at [none, none, some 100] 1 = some v) :=
  C6_gap_handling [none, none, some (100 : ℚ)] 180 1 (by norm_num)

/-- Two streamless activities whose first record is dated day 2 while the
second — the earliest — is dated day 1. -/
def c7_acts : List Activity :=
  [⟨1, "b", 2, none, none⟩, ⟨2, "c", 1, none, none⟩]

/-- C7 counterexample: the daily table is built from the FIRST record's date
(`data[0]`), not the earliest activity's date: with records dated [2, 1] and
today = 3 the table covers days [2, 3] only, and day 1 — the earliest
activity's date — has no row. -/
theorem C7_counterexample :
    c7_acts.map Activity.start_date = [2, 1] ∧
    (build_table c7_acts 180 3).map Prod.fst = [2, 3] ∧
    ¬ ((1 : ℕ) ∈ (build_table c7_acts 180 3).map Prod.fst) := by
  refine ⟨rfl, ?_, ?_⟩ <;> decide

/-- C7 amended: the table spans every day from the first record's date to
today inclusive, in strictly increasing order with no duplicates and no
gaps, and a day on which no activity starts keeps all-zero zone minutes and
zero trimp after the fill. -/
theorem C7_table_shape (acts : List Activity) (m : ℚ) (today : ℕ) (a : Activity)
    (hhead : acts.head? = some a) (hle : a.start_date ≤ today) :
    (build_table acts m today).map Prod.fst = date_range a.start_date today ∧
    List.Pairwise (· < ·) ((build_table acts m today).map Prod.fst) ∧
    (∀ d : ℕ, d ∈ (build_table acts m today).map Prod.fst ↔ (a.start_date ≤ d ∧ d ≤ today)) ∧
    (∀ dr ∈ day_rows acts m today, (∀ b ∈ acts, b.start_date ≠ dr.date) →
      dr.tz0 = 0 ∧ dr.tz1 = 0 ∧ dr.tz2 = 0 ∧ dr.tz3 = 0 ∧ dr.tz4 = 0 ∧ dr.tz5 = 0 ∧
      dr.trimp = 0) := by
  have hstart : start_of acts = a.start_date := by
    unfold start_of
    rw [hhead]
    rfl
  have hdates : (build_table acts m today).map Prod.fst = date_range a.start_date today := by
    rw [build_table, merge_all_fst, init_table_fst, hstart]
  refine ⟨hdates, ?_, ?_, ?_⟩
  · rw [hdates]
    exact date_range_pairwise _ _
  · intro d
    rw [hdates]
    exact date_range_mem _ _ _ hle
  · intro dr hdr hb
    obtain ⟨p, hp, rfl⟩ := List.mem_map.1 hdr
    have hpt : p ∈ init_table (start_of acts) today :=
      mem_merge_all_of_ne acts m _ p hp (fun b hbm => hb b hbm)
    obtain ⟨d, _, hpe⟩ := List.mem_map.1 hpt
    rw [← hpe]
    simp [to_day_row, emptyRow, fill0]

/-- A single streamless activity dated day 0, for the C7 witness. -/
def c7w_acts : List Activity :=
  [⟨1, "a", 0, none, none⟩]

/-- C7 witness: the theorem applied to one activity dated day 0 with
today = 1. -/
theorem C7_table_shape_witness :
    (build_table c7w_acts 180 1).map Prod.fst = date_range 0 1 ∧
    List.Pairwise (· < ·) ((build_table c7w_acts 180 1).map Prod.fst) ∧
    (∀ d : ℕ, d ∈ (build_table c7w_acts 180 1).map Prod.fst ↔ (0 ≤ d ∧ d ≤ 1)) ∧
    (∀ dr ∈ day_rows c7w_acts 180 1, (∀ b ∈ c7w_acts, b.start_date ≠ dr.date) →
      dr.tz0 = 0 ∧ dr.tz1 = 0 ∧ dr.tz2 = 0 ∧ dr.tz3 = 0 ∧ dr.tz4 = 0 ∧ dr.tz5 = 0 ∧
      dr.trimp = 0) :=
  C7_table_shape c7w_acts 180 1 ⟨1, "a", 0, none, none⟩ rfl (by norm_num)

/-- C8 counterexample: a dict record with no "streams" key raises `KeyError`
through `get_stream` — only `TypeError` is caught — so the extractor does
not degrade every structurally malformed record to "absent". -/
theorem C8_counterexample :
    get_stream (JVal.jobj [("id", JVal.jnum 1)]) "time" = Except.error PyExc.keyError := rfl

/-- C8 amended: `get_stream` never lets a `TypeError` escape (the `except`
clause converts it to "absent"), though a `KeyError` can. -/
theorem C8_no_typeerror (d : JVal) (s : String) :
    get_stream d s ≠ Except.error PyExc.typeError := by
  unfold get_stream
  cases h : get_streamRaw d s with
  | ok v => simp
  | error e => cases e <;> simp

/-- An activity with valid streams, dated day 0, for the C9 counterexample. -/
def c9_act : Activity :=
  ⟨7, "x", 0, some [0, 1], some [100, 90]⟩

set_option maxHeartbeats 1000000 in
/-- C9 counterexample: a negative maximum heart-rate (-5) is not rejected:
the activity is processed all the way into the daily table — its id is
recorded and its single in-domain second lands in zone 0 (1/60 minutes) —
instead of failing a precondition check before processing. -/
theorem C9_counterexample :
    (day_rows [c9_act] (-5) 0).map DayRow.id = [some 7] ∧
    (day_rows [c9_act] (-5) 0).map DayRow.tz0 = [1 / 60] ∧
    (-5 : ℚ) < 0 := by
  refine ⟨?_, ?_, by norm_num⟩ <;>
    norm_num [c9_act, day_rows, build_table, merge_all, init_table, date_range, start_of,
      process_activity, update_row, to_day_row, fill0, agg_minutes, zone_seconds,
      activity_series, interpolate, reindex, drop_duplicates, mkSeries, maxL, series_lookup,
      interp_at, known_at, prev_known, next_known, get_zone, nan_ge, nan_lt, List.range_succ,
      emptyRow]

/-- C9 amended: no validation exists; a negative maximum heart-rate flows
into the pipeline, where every nonnegative heart-rate sample yields a
nonpositive percentage and classifies to zone 0.  (A zero maximum raises a
division error in the source at classification time, not an upfront
rejection — the theorems on `get_zone` therefore always assume a nonzero
maximum.) -/
theorem C9_negative_hrmax (m v : ℚ) (hm : m < 0) (hv : 0 ≤ v) : get_zone (some v) m = 0 := by
  have h1 : m⁻¹ ≤ 0 := inv_nonpos.2 hm.le
  have h2 : (0 : ℚ) ≤ v * 100 := by positivity
  have hp : v * 100 / m ≤ 0 := by
    rw [div_eq_mul_inv]
    exact mul_nonpos_of_nonneg_of_nonpos h2 h1
  rw [get_zone_eval,
    if_neg (show ¬(50 ≤ v * 100 / m ∧ v * 100 / m < 60) by rintro ⟨a, b⟩; linarith),
    if_neg (show ¬(60 ≤ v * 100 / m ∧ v * 100 / m < 70) by rintro ⟨a, b⟩; linarith),
    if_neg (show ¬(70 ≤ v * 100 / m ∧ v * 100 / m < 80) by rintro ⟨a, b⟩; linarith),
    if_neg (show ¬(80 ≤ v * 100 / m ∧ v * 100 / m < 90) by rintro ⟨a, b⟩; linarith),
    if_neg (show ¬(90 ≤ v * 100 / m) by linarith)]

/-- C9 witness: heart-rate 90 against maximum -5 classifies to zone 0. -/
theorem C9_negative_hrmax_witness : get_zone (some 90) (-5) = 0 :=
  C9_negative_hrmax (-5) 90 (by norm_num) (by norm_num)

/-- C10: with a nonzero maximum heart-rate the classifier is total on a
missing (NaN) value and answers zone 0; every unresolved second is therefore
counted toward zone 0's second count; and the trimp derivation never reads
tz0, so such seconds cannot affect trimp. -/
theorem C10_nan_zone (m : ℚ) (hm : m ≠ 0) :
    get_zone none m = 0 ∧
    (∀ l : List (Option ℚ), l.count none ≤ zone_seconds l m 0) ∧
    (∀ r : Row, ∀ x : Option ℚ,
      (to_day_row (0, ⟨r.id, r.name, x, r.tz1, r.tz2, r.tz3, r.tz4, r.tz5⟩)).trimp =
        (to_day_row (0, r)).trimp) := by
  refine ⟨get_zone_none m, ?_, ?_⟩
  · intro l
    have h1 : zone_seconds l m 0 = l.countP (fun x => get_zone x m == 0) := by
      unfold zone_seconds
      rw [List.count, List.countP_map]
      rfl
    rw [h1, List.count]
    refine List.countP_mono_left fun a ha hp => ?_
    have ha2 : a = none := by simpa using hp
    subst ha2
    simp [get_zone_none]
  · intro r x
    rfl

/-- C10 witness: the theorem applied at maximum heart-rate 180. -/
theorem C10_nan_zone_witness :
    get_zone none 180 = 0 ∧
    (∀ l : List (Option ℚ), l.count none ≤ zone_seconds l 180 0) ∧
    (∀ r : Row, ∀ x : Option ℚ,
      (to_day_row (0, ⟨r.id, r.name, x, r.tz1, r.tz2, r.tz3, r.tz4, r.tz5⟩)).trimp =
        (to_day_row (0, r)).trimp) :=
  C10_nan_zone 180 (by norm_num)

end TPA
